import Mathlib

/-!
Verification of the aws-quicksight-s3-file-downloader repository.

The repository deploys a single HTTP endpoint that turns an `s3://bucket/key`
locator into a short-lived signed download link.  The CDK stack
(`S3DownloadApiStack`, in the TypeScript sources) wires an API Gateway with
CORS restricted to the configured origins, a Lambda execution role whose S3
policy covers exactly the configured buckets, and a Lambda function receiving
the allow-lists through comma-joined environment variables.  The Python
request handler itself is not part of the checked-in sources (only the stack
that deploys it is), so the handler pipeline below is modelled from the spec:
origin guard, locator parser, bucket authorizer, object prober, link issuer
and response builder, in that order, strictly short-circuiting.
-/

namespace S3Download

/-- Modelled from the spec: the immutable configuration loaded at process
start (the missing Python handler reads it from the `ALLOWED_ORIGINS` and
`ALLOWED_BUCKETS` environment variables). -/
structure Config where
  allowedOrigins : List String
  allowedBuckets : List String
deriving Repr

/-- Modelled from the spec: `linkLifetimeSeconds` is fixed at 3600. -/
def linkLifetimeSeconds : Nat := 3600

/-- Modelled from the spec: an incoming request — `Origin` header, `Referer`
header, and the `uri` query parameter (absent when the parameter is missing). -/
structure Request where
  origin : Option String
  referer : Option String
  uri : Option String
deriving Repr

/-- A parsed `bucket://key` locator: bucket and key, both non-empty on any
successful parse. -/
structure Locator where
  bucket : String
  key : String
deriving DecidableEq, Repr

/-- Result of the storage backend existence probe `HeadObject`: the object
exists, it is confirmed absent, or the call failed (timeout, permission
denial distinct from not-found, malformed response). -/
inductive HeadResult where
  | objectExists
  | absent
  | backendError
deriving DecidableEq, Repr

/-- The storage backend surface: `HeadObject(bucket, key)` and
`SignGetUrl(bucket, key, lifetimeSeconds)` (`none` = signing failure). -/
structure Backend where
  headObject : String → String → HeadResult
  signGetUrl : String → String → Nat → Option String

/-- The tagged outcome of one invocation; it fully determines the HTTP
response. -/
inductive Outcome where
  | Redirect (url : String) (expiresAt : Nat)
  | BadRequest (message : String)
  | Forbidden (message : String)
  | NotFound (message : String)
  | InternalError (message : String)
deriving DecidableEq, Repr

/-- Response builder: the HTTP status of each outcome. -/
def Outcome.status : Outcome → Nat
  | .Redirect _ _ => 302
  | .BadRequest _ => 400
  | .Forbidden _ => 403
  | .NotFound _ => 404
  | .InternalError _ => 500

/-- Response builder: the `Location` header, present exactly on redirects. -/
def Outcome.locationHeader : Outcome → Option String
  | .Redirect url _ => some url
  | _ => none

/-- Modelled from the spec: the 400 body for a missing or malformed `uri`
parameter (per the API documentation). -/
def uriFormatMessage : String :=
  "URI parameter is required with format s3://bucket-name/path/to/file"

/-- Modelled from the spec: the 403 body for a disallowed origin. -/
def unauthorizedOriginMessage : String := "Unauthorized origin."

/-- Comma-space enumeration of the allowed buckets used in the 403 body. -/
def enumBuckets : List String → String
  | [] => ""
  | [b] => b
  | b :: bs => b ++ ", " ++ enumBuckets bs

/-- Modelled from the spec: the 403 body for a bucket outside the allow-list;
it names the rejected bucket and enumerates the allowed ones. -/
def bucketForbiddenMessage (bucket : String) (allowed : List String) : String :=
  "You don\x27t have permission to access bucket: " ++ bucket ++
    ". Allowed buckets: " ++ enumBuckets allowed

/-- `sub` occurs as a contiguous substring of `s`. -/
def ContainsSub (sub s : String) : Prop :=
  ∃ p q, s.data = p ++ sub.data ++ q

/-- Strip the literal `s3://` scheme from the front of a character list. -/
def stripScheme : List Char → Option (List Char)
  | 's' :: '3' :: ':' :: '/' :: '/' :: rest => some rest
  | _ => none

/-- The characters before the first path separator. -/
def takeBucket : List Char → List Char
  | [] => []
  | c :: cs => if c = '/' then [] else c :: takeBucket cs

/-- The characters after the first path separator ([] when there is none). -/
def dropToKey : List Char → List Char
  | [] => []
  | c :: cs => if c = '/' then cs else dropToKey cs

/-- Modelled from the spec: the locator parser.  The `uri` value must start
with the `s3://` scheme; the first path segment after it is the bucket and
must be non-empty; the remainder after the first separator is the key and
must be non-empty.  Any violation parses to `none` (a `BadRequest`). -/
def parseLocator (s : String) : Option Locator :=
  match stripScheme s.data with
  | none => none
  | some rest =>
      let b := takeBucket rest
      let k := dropToKey rest
      if b = [] ∨ k = [] then none
      else some ⟨String.mk b, String.mk k⟩

/-- The origin the guard checks: the `Origin` header, falling back to
`Referer` when `Origin` is absent. -/
def requestOrigin (req : Request) : Option String :=
  match req.origin with
  | some o => some o
  | none => req.referer

/-- Modelled from the spec: the origin guard — exact-string membership of the
effective origin in the allow-list; absence of both headers fails closed. -/
def originAllowed (cfg : Config) (req : Request) : Bool :=
  match requestOrigin req with
  | none => false
  | some o => decide (o ∈ cfg.allowedOrigins)

/-- One observable call to the storage backend, recorded in order. -/
inductive BackendCall where
  | head (bucket key : String)
  | sign (bucket key : String) (lifetime : Nat)
deriving DecidableEq, Repr

/-- Modelled from the spec: the whole handler pipeline, instrumented with the
ordered list of backend calls it issues.  Stages run in order — origin guard,
locator parser, bucket authorizer, object prober, link issuer — and the first
failing stage terminates the pipeline with its outcome. -/
def handleT (cfg : Config) (backend : Backend) (now : Nat) (req : Request) :
    Outcome × List BackendCall :=
  if ¬ originAllowed cfg req then
    (.Forbidden unauthorizedOriginMessage, [])
  else
    match req.uri with
    | none => (.BadRequest uriFormatMessage, [])
    | some u =>
      match parseLocator u with
      | none => (.BadRequest uriFormatMessage, [])
      | some loc =>
        if ¬ decide (loc.bucket ∈ cfg.allowedBuckets) then
          (.Forbidden (bucketForbiddenMessage loc.bucket cfg.allowedBuckets), [])
        else
          match backend.headObject loc.bucket loc.key with
          | .absent => (.NotFound "File not found", [.head loc.bucket loc.key])
          | .backendError =>
              (.InternalError "Internal server error", [.head loc.bucket loc.key])
          | .objectExists =>
            match backend.signGetUrl loc.bucket loc.key linkLifetimeSeconds with
            | none =>
                (.InternalError "Internal server error",
                 [.head loc.bucket loc.key, .sign loc.bucket loc.key linkLifetimeSeconds])
            | some url =>
                (.Redirect url (now + linkLifetimeSeconds),
                 [.head loc.bucket loc.key, .sign loc.bucket loc.key linkLifetimeSeconds])

/-- Modelled from the spec: the handler's outcome for one invocation, at
issuance time `now` (seconds). -/
def handle (cfg : Config) (backend : Backend) (now : Nat) (req : Request) : Outcome :=
  (handleT cfg backend now req).1

/-! ## The CDK stack (`S3DownloadApiStack`, from the TypeScript source) -/

/-- The stack properties consumed by `S3DownloadApiStack` (the claims do not
mention the naming prefix, so it is omitted). -/
structure StackProps where
  allowedBuckets : List String
  allowedOrigins : List String
deriving Repr

/-- `apigateway.Cors.ALL_METHODS` (library constant referenced by the stack). -/
def corsAllMethods : List String :=
  ["OPTIONS", "GET", "PUT", "POST", "DELETE", "PATCH", "HEAD"]

/-- `apigateway.Cors.DEFAULT_HEADERS` (library constant referenced by the
stack). -/
def corsDefaultHeaders : List String :=
  ["Content-Type", "X-Amz-Date", "Authorization", "X-Api-Key",
   "X-Amz-Security-Token", "X-Amz-User-Agent"]

/-- The CORS preflight options of a deployed REST API. -/
structure CorsOptions where
  allowOrigins : List String
  allowMethods : List String
  allowHeaders : List String
  allowCredentials : Bool
deriving Repr

/-- The `defaultCorsPreflightOptions` the stack passes to
`DownloadS3ApiGateway`: the configured origins, all methods, the default
header set, credentials allowed. -/
def stackCorsOptions (props : StackProps) : CorsOptions :=
  { allowOrigins := props.allowedOrigins
    allowMethods := corsAllMethods
    allowHeaders := corsDefaultHeaders
    allowCredentials := true }

/-- An IAM policy statement as the stack builds it. -/
structure PolicyStatement where
  allowEffect : Bool
  actions : List String
  resources : List String
deriving Repr

/-- The resource ARN `arn:aws:s3:::<bucket>/*` used in the role policy. -/
def bucketObjectsArn (b : String) : String := "arn:aws:s3:::" ++ b ++ "/*"

/-- The policy statement the stack adds to `DownloadFunctionRole`: allow
`s3:GetObject` and `s3:HeadObject` on `arn:aws:s3:::<b>/*` for each allowed
bucket `b`. -/
def stackLambdaPolicy (props : StackProps) : PolicyStatement :=
  { allowEffect := true
    actions := ["s3:GetObject", "s3:HeadObject"]
    resources := props.allowedBuckets.map bucketObjectsArn }

/-- The Lambda function timeout set by the stack: `cdk.Duration.minutes(15)`,
in seconds. -/
def lambdaTimeoutSeconds : Nat := 15 * 60

/-- `Array.join(',')` as the stack uses it to build the environment strings
(comma interposed between consecutive entries). -/
def joinCommaChars : List (List Char) → List Char
  | [] => []
  | [x] => x
  | x :: xs => x ++ ',' :: joinCommaChars xs

/-- String form of `joinCommaChars`. -/
def joinComma (ls : List String) : String :=
  String.mk (joinCommaChars (ls.map String.data))

/-- Modelled from the spec: the handler recovers each list by splitting the
environment string on every comma (Python `str.split(',')`): splitting never
yields the empty list — the empty string splits to `[[]]`. -/
def splitCommaChars : List Char → List (List Char)
  | [] => [[]]
  | c :: cs =>
      if c = ',' then [] :: splitCommaChars cs
      else
        match splitCommaChars cs with
        | [] => [[c]]
        | r :: rs => (c :: r) :: rs

/-- String form of `splitCommaChars`. -/
def splitComma (s : String) : List String :=
  (splitCommaChars s.data).map String.mk

/-- The environment the stack passes to the Lambda function. -/
def stackEnvironment (props : StackProps) : List (String × String) :=
  [("ALLOWED_BUCKETS", joinComma props.allowedBuckets),
   ("ALLOWED_ORIGINS", joinComma props.allowedOrigins)]

/-! ## Concrete fixtures (spec scenarios) used to instantiate the theorems -/

/-- Configuration of the spec's concrete scenarios. -/
def demoConfig : Config :=
  { allowedOrigins := ["https://app.example.com"], allowedBuckets := ["reports-bucket"] }

/-- Stack properties matching `demoConfig`. -/
def demoProps : StackProps :=
  { allowedBuckets := ["reports-bucket"], allowedOrigins := ["https://app.example.com"] }

/-- A concrete signed URL a healthy backend hands back. -/
def demoUrl : String := "https://reports-bucket.s3.amazonaws.com/2024/q1.pdf?sig"

/-- A healthy backend: the object exists and signing succeeds. -/
def demoBackend : Backend :=
  { headObject := fun _ _ => .objectExists, signGetUrl := fun _ _ _ => some demoUrl }

/-- A backend whose probe confirms the object absent. -/
def absentBackend : Backend :=
  { headObject := fun _ _ => .absent, signGetUrl := fun _ _ _ => some demoUrl }

/-- A backend whose probe fails (timeout or similar). -/
def errorBackend : Backend :=
  { headObject := fun _ _ => .backendError, signGetUrl := fun _ _ _ => none }

/-- A backend that confirms existence but fails to sign. -/
def noSignBackend : Backend :=
  { headObject := fun _ _ => .objectExists, signGetUrl := fun _ _ _ => none }

/-- The spec's happy-path request: allowed origin, well-formed locator. -/
def goodRequest : Request :=
  { origin := some "https://app.example.com", referer := none,
    uri := some "s3://reports-bucket/2024/q1.pdf" }

/-- The spec's disallowed-origin request. -/
def evilRequest : Request :=
  { origin := some "https://evil.example.com", referer := none,
    uri := some "s3://reports-bucket/2024/q1.pdf" }

/-- Allowed origin, malformed locator. -/
def badUriRequest : Request :=
  { origin := some "https://app.example.com", referer := none,
    uri := some "not-a-valid-uri" }

/-- Allowed origin, well-formed locator naming an unlisted bucket. -/
def unlistedBucketRequest : Request :=
  { origin := some "https://app.example.com", referer := none,
    uri := some "s3://unlisted-bucket/file.txt" }

/-- The locator the happy-path request parses to. -/
def demoLocator : Locator := { bucket := "reports-bucket", key := "2024/q1.pdf" }

/-! ## Helper lemmas -/

theorem mk_data (s : String) : String.mk s.data = s := by cases s; rfl

theorem takeBucket_no_slash (l : List Char) : ∀ c ∈ takeBucket l, c ≠ '/' := by
  induction l with
  | nil => simp [takeBucket]
  | cons c cs ih =>
      by_cases h : c = '/'
      · simp [takeBucket, h]
      · intro c' hc'
        simp [takeBucket, h] at hc'
        rcases hc' with rfl | hc'
        · exact h
        · exact ih c' hc'

theorem takeBucket_dropToKey (l : List Char) (h : dropToKey l ≠ []) :
    l = takeBucket l ++ '/' :: dropToKey l := by
  induction l with
  | nil => simp [dropToKey] at h
  | cons c cs ih =>
      by_cases hc : c = '/'
      · subst hc; simp [takeBucket, dropToKey]
      · have h' : dropToKey cs ≠ [] := by simpa [dropToKey, hc] using h
        simpa [takeBucket, dropToKey, hc] using ih h'

theorem parseLocator_some (u : String) (loc : Locator) (h : parseLocator u = some loc) :
    loc.bucket ≠ "" ∧ (∀ c ∈ loc.bucket.data, c ≠ '/') ∧ loc.key ≠ "" ∧
    ∃ rest, stripScheme u.data = some rest ∧
      rest = loc.bucket.data ++ '/' :: loc.key.data ∧
      takeBucket rest = loc.bucket.data ∧ dropToKey rest = loc.key.data := by
  unfold parseLocator at h
  cases hs : stripScheme u.data with
  | none => rw [hs] at h; cases h
  | some rest =>
      rw [hs] at h
      by_cases hbk : takeBucket rest = [] ∨ dropToKey rest = []
      · simp [hbk] at h
      · push_neg at hbk
        simp [hbk.1, hbk.2] at h
        obtain rfl : loc = ⟨String.mk (takeBucket rest), String.mk (dropToKey rest)⟩ := h.symm
        refine ⟨?_, ?_, ?_, rest, rfl, ?_, rfl, rfl⟩
        · intro hcontra
          exact hbk.1 (congrArg String.data hcontra)
        · exact takeBucket_no_slash rest
        · intro hcontra
          exact hbk.2 (congrArg String.data hcontra)
        · exact takeBucket_dropToKey rest hbk.2

theorem originAllowed_eq_false (cfg : Config) (req : Request)
    (h : ∀ o, requestOrigin req = some o → o ∉ cfg.allowedOrigins) :
    originAllowed cfg req = false := by
  unfold originAllowed
  cases hro : requestOrigin req with
  | none => rfl
  | some o => simpa using h o hro

theorem handleT_origin_denied (cfg : Config) (backend : Backend) (now : Nat) (req : Request)
    (h : originAllowed cfg req = false) :
    handleT cfg backend now req = (.Forbidden unauthorizedOriginMessage, []) := by
  simp [handleT, h]

theorem handleT_no_uri (cfg : Config) (backend : Backend) (now : Nat) (req : Request)
    (ho : originAllowed cfg req = true) (hu : req.uri = none) :
    handleT cfg backend now req = (.BadRequest uriFormatMessage, []) := by
  simp [handleT, ho, hu]

theorem handleT_bad_uri (cfg : Config) (backend : Backend) (now : Nat) (req : Request)
    (u : String) (ho : originAllowed cfg req = true) (hu : req.uri = some u)
    (hp : parseLocator u = none) :
    handleT cfg backend now req = (.BadRequest uriFormatMessage, []) := by
  simp [handleT, ho, hu, hp]

theorem handleT_bad_bucket (cfg : Config) (backend : Backend) (now : Nat) (req : Request)
    (u : String) (loc : Locator) (ho : originAllowed cfg req = true) (hu : req.uri = some u)
    (hp : parseLocator u = some loc) (hb : loc.bucket ∉ cfg.allowedBuckets) :
    handleT cfg backend now req =
      (.Forbidden (bucketForbiddenMessage loc.bucket cfg.allowedBuckets), []) := by
  simp [handleT, ho, hu, hp, hb]

theorem handleT_probe (cfg : Config) (backend : Backend) (now : Nat) (req : Request)
    (u : String) (loc : Locator) (ho : originAllowed cfg req = true) (hu : req.uri = some u)
    (hp : parseLocator u = some loc) (hb : loc.bucket ∈ cfg.allowedBuckets) :
    handleT cfg backend now req =
      match backend.headObject loc.bucket loc.key with
      | .absent => (.NotFound "File not found", [.head loc.bucket loc.key])
      | .backendError =>
          (.InternalError "Internal server error", [.head loc.bucket loc.key])
      | .objectExists =>
          match backend.signGetUrl loc.bucket loc.key linkLifetimeSeconds with
          | none =>
              (.InternalError "Internal server error",
               [.head loc.bucket loc.key, .sign loc.bucket loc.key linkLifetimeSeconds])
          | some url =>
              (.Redirect url (now + linkLifetimeSeconds),
               [.head loc.bucket loc.key, .sign loc.bucket loc.key linkLifetimeSeconds]) := by
  simp [handleT, ho, hu, hp, hb]

theorem enumBuckets_mem (l : List String) (b : String) (hb : b ∈ l) :
    ∃ p q, (enumBuckets l).data = p ++ b.data ++ q := by
  induction l with
  | nil => cases hb
  | cons x xs ih =>
      cases xs with
      | nil =>
          rcases hb with _ | ⟨_, h⟩
          · exact ⟨[], [], by simp [enumBuckets]⟩
          · cases h
      | cons y ys =>
          rcases List.mem_cons.mp hb with rfl | hb'
          · exact ⟨[], (", " ++ enumBuckets (y :: ys)).data,
              by simp [enumBuckets, String.data_append]⟩
          · obtain ⟨p, q, hpq⟩ := ih hb'
            exact ⟨(x ++ ", ").data ++ p, q,
              by simp [enumBuckets, String.data_append, hpq]⟩

theorem bucketForbiddenMessage_names (bucket : String) (allowed : List String) :
    ContainsSub bucket (bucketForbiddenMessage bucket allowed) := by
  refine ⟨("You don\x27t have permission to access bucket: " : String).data,
    (". Allowed buckets: " ++ enumBuckets allowed).data, ?_⟩
  simp [bucketForbiddenMessage, String.data_append]

theorem bucketForbiddenMessage_enumerates (bucket : String) (allowed : List String) :
    ∀ b ∈ allowed, ContainsSub b (bucketForbiddenMessage bucket allowed) := by
  intro b hb
  obtain ⟨p, q, hpq⟩ := enumBuckets_mem allowed b hb
  refine ⟨("You don\x27t have permission to access bucket: " ++ bucket ++
    ". Allowed buckets: " : String).data ++ p, q, ?_⟩
  simp [bucketForbiddenMessage, String.data_append, hpq]

/-! ## Claim theorems -/

/-- C1: whenever the request's effective origin — the `Origin` header, falling
back to `Referer`, possibly absent altogether — is not an exact member of the
configured allow-list, the handler's outcome is `Forbidden` with HTTP status
403, regardless of the `uri` parameter, the backend, or the clock. -/
theorem origin_guard_forbids (cfg : Config) (backend : Backend) (now : Nat) (req : Request)
    (h : ∀ o, requestOrigin req = some o → o ∉ cfg.allowedOrigins) :
    handle cfg backend now req = .Forbidden unauthorizedOriginMessage ∧
    (handle cfg backend now req).status = 403 := by
  have hfalse := originAllowed_eq_false cfg req h
  have hT := handleT_origin_denied cfg backend now req hfalse
  exact ⟨by simp [handle, hT], by simp [handle, hT, Outcome.status]⟩

/-- Witness for C1: the spec's disallowed-origin scenario. -/
theorem origin_guard_forbids_witness :
    handle demoConfig demoBackend 0 evilRequest = .Forbidden unauthorizedOriginMessage ∧
    (handle demoConfig demoBackend 0 evilRequest).status = 403 :=
  origin_guard_forbids demoConfig demoBackend 0 evilRequest (by
    intro o ho
    simp [requestOrigin, evilRequest] at ho
    subst ho
    decide)

/-- C2: for an allowed origin, a well-formed locator in an allowed bucket and
a backend confirming existence, a successful signing yields a 302 redirect
whose `Location` header is the signed URL and whose expiry is exactly
`linkLifetimeSeconds` (3600 s) after issuance; a signing failure yields
`InternalError`, never an unsigned or permanent link. -/
theorem link_issuer_contract (cfg : Config) (backend : Backend) (now : Nat) (req : Request)
    (u : String) (loc : Locator)
    (ho : originAllowed cfg req = true) (hu : req.uri = some u)
    (hp : parseLocator u = some loc) (hb : loc.bucket ∈ cfg.allowedBuckets)
    (hhead : backend.headObject loc.bucket loc.key = .objectExists) :
    (∀ url, backend.signGetUrl loc.bucket loc.key linkLifetimeSeconds = some url →
       handle cfg backend now req = .Redirect url (now + linkLifetimeSeconds) ∧
       (handle cfg backend now req).status = 302 ∧
       (handle cfg backend now req).locationHeader = some url) ∧
    (backend.signGetUrl loc.bucket loc.key linkLifetimeSeconds = none →
       handle cfg backend now req = .InternalError "Internal server error") ∧
    linkLifetimeSeconds = 3600 := by
  have hT := handleT_probe cfg backend now req u loc ho hu hp hb
  rw [hhead] at hT
  refine ⟨?_, ?_, rfl⟩
  · intro url hsig
    rw [hsig] at hT
    exact ⟨by simp [handle, hT], by simp [handle, hT, Outcome.status],
      by simp [handle, hT, Outcome.locationHeader]⟩
  · intro hsig
    rw [hsig] at hT
    simp [handle, hT]

/-- Witness for C2: the spec's happy-path scenario at issuance time 7. -/
theorem link_issuer_contract_witness :
    handle demoConfig demoBackend 7 goodRequest = .Redirect demoUrl (7 + linkLifetimeSeconds) ∧
    (handle demoConfig demoBackend 7 goodRequest).status = 302 ∧
    (handle demoConfig demoBackend 7 goodRequest).locationHeader = some demoUrl :=
  (link_issuer_contract demoConfig demoBackend 7 goodRequest
      "s3://reports-bucket/2024/q1.pdf" demoLocator
      rfl rfl rfl (by decide) rfl).1 demoUrl rfl

/-- C3: for an allowed origin and a well-formed locator whose bucket is not in
the allow-list, the outcome is `Forbidden` with HTTP status 403, and the body
names the rejected bucket and contains every configured allowed bucket. -/
theorem bucket_authorizer_forbids (cfg : Config) (backend : Backend) (now : Nat) (req : Request)
    (u : String) (loc : Locator)
    (ho : originAllowed cfg req = true) (hu : req.uri = some u)
    (hp : parseLocator u = some loc) (hb : loc.bucket ∉ cfg.allowedBuckets) :
    handle cfg backend now req =
      .Forbidden (bucketForbiddenMessage loc.bucket cfg.allowedBuckets) ∧
    (handle cfg backend now req).status = 403 ∧
    ContainsSub loc.bucket (bucketForbiddenMessage loc.bucket cfg.allowedBuckets) ∧
    ∀ b ∈ cfg.allowedBuckets,
      ContainsSub b (bucketForbiddenMessage loc.bucket cfg.allowedBuckets) := by
  have hT := handleT_bad_bucket cfg backend now req u loc ho hu hp hb
  exact ⟨by simp [handle, hT], by simp [handle, hT, Outcome.status],
    bucketForbiddenMessage_names loc.bucket cfg.allowedBuckets,
    bucketForbiddenMessage_enumerates loc.bucket cfg.allowedBuckets⟩

/-- Witness for C3: the spec's unlisted-bucket scenario. -/
theorem bucket_authorizer_forbids_witness :
    handle demoConfig demoBackend 0 unlistedBucketRequest =
      .Forbidden (bucketForbiddenMessage "unlisted-bucket" demoConfig.allowedBuckets) ∧
    (handle demoConfig demoBackend 0 unlistedBucketRequest).status = 403 ∧
    ContainsSub "unlisted-bucket"
      (bucketForbiddenMessage "unlisted-bucket" demoConfig.allowedBuckets) ∧
    ∀ b ∈ demoConfig.allowedBuckets,
      ContainsSub b (bucketForbiddenMessage "unlisted-bucket" demoConfig.allowedBuckets) :=
  bucket_authorizer_forbids demoConfig demoBackend 0 unlistedBucketRequest
    "s3://unlisted-bucket/file.txt" ⟨"unlisted-bucket", "file.txt"⟩
    rfl rfl rfl (by decide)

/-- C4: for an allowed origin, every malformed `uri` — missing parameter,
empty value, missing `s3://` scheme, empty bucket segment, empty key
remainder — yields `BadRequest` (HTTP 400) whose body is the fixed message
naming the expected format; conversely any `uri` that parses yields a
`Locator` with a non-empty bucket free of path separators and a non-empty key
equal to the remainder after the first separator. -/
theorem locator_parser_contract (cfg : Config) (backend : Backend) (now : Nat) (req : Request)
    (ho : originAllowed cfg req = true) :
    (req.uri = none →
       handle cfg backend now req = .BadRequest uriFormatMessage ∧
       (handle cfg backend now req).status = 400) ∧
    (∀ u, req.uri = some u → parseLocator u = none →
       handle cfg backend now req = .BadRequest uriFormatMessage ∧
       (handle cfg backend now req).status = 400) ∧
    parseLocator "" = none ∧
    (∀ u : String, stripScheme u.data = none → parseLocator u = none) ∧
    (∀ u : String, ∀ rest, stripScheme u.data = some rest → takeBucket rest = [] →
       parseLocator u = none) ∧
    (∀ u : String, ∀ rest, stripScheme u.data = some rest → dropToKey rest = [] →
       parseLocator u = none) ∧
    ContainsSub "s3://bucket-name/path/to/file" uriFormatMessage ∧
    (∀ u loc, parseLocator u = some loc →
       loc.bucket ≠ "" ∧ (∀ c ∈ loc.bucket.data, c ≠ '/') ∧ loc.key ≠ "" ∧
       ∃ rest, stripScheme u.data = some rest ∧
         rest = loc.bucket.data ++ '/' :: loc.key.data) := by
  refine ⟨?_, ?_, rfl, ?_, ?_, ?_, ?_, ?_⟩
  · intro hu
    have hT := handleT_no_uri cfg backend now req ho hu
    exact ⟨by simp [handle, hT], by simp [handle, hT, Outcome.status]⟩
  · intro u hu hp
    have hT := handleT_bad_uri cfg backend now req u ho hu hp
    exact ⟨by simp [handle, hT], by simp [handle, hT, Outcome.status]⟩
  · intro u hs
    simp [parseLocator, hs]
  · intro u rest hs hbkt
    simp [parseLocator, hs, hbkt]
  · intro u rest hs hkey
    simp [parseLocator, hs, hkey]
  · exact ⟨"URI parameter is required with format ".data, [], rfl⟩
  · intro u loc h
    obtain ⟨h1, h2, h3, rest, hr1, hr2, -⟩ := parseLocator_some u loc h
    exact ⟨h1, h2, h3, rest, hr1, hr2⟩

/-- Witness for C4: the spec's malformed-locator scenario `not-a-valid-uri`. -/
theorem locator_parser_contract_witness :
    handle demoConfig demoBackend 0 badUriRequest = .BadRequest uriFormatMessage ∧
    (handle demoConfig demoBackend 0 badUriRequest).status = 400 :=
  (locator_parser_contract demoConfig demoBackend 0 badUriRequest rfl).2.1
    "not-a-valid-uri" rfl rfl

/-- C5: for an authorized, well-formed request, the probe's three backend
results map to three distinct outcomes — existence proceeds to signing,
confirmed absence yields `NotFound` (404), and a backend failure yields
`InternalError` (500) — and a backend error is never mapped to `NotFound`. -/
theorem object_prober_trichotomy (cfg : Config) (backend : Backend) (now : Nat) (req : Request)
    (u : String) (loc : Locator)
    (ho : originAllowed cfg req = true) (hu : req.uri = some u)
    (hp : parseLocator u = some loc) (hb : loc.bucket ∈ cfg.allowedBuckets) :
    (backend.headObject loc.bucket loc.key = .objectExists →
       (handleT cfg backend now req).2 =
         [.head loc.bucket loc.key, .sign loc.bucket loc.key linkLifetimeSeconds]) ∧
    (backend.headObject loc.bucket loc.key = .absent →
       handle cfg backend now req = .NotFound "File not found" ∧
       (handle cfg backend now req).status = 404) ∧
    (backend.headObject loc.bucket loc.key = .backendError →
       handle cfg backend now req = .InternalError "Internal server error" ∧
       (handle cfg backend now req).status = 500 ∧
       ∀ m, handle cfg backend now req ≠ .NotFound m) := by
  have hT := handleT_probe cfg backend now req u loc ho hu hp hb
  refine ⟨?_, ?_, ?_⟩
  · intro hh
    rw [hh] at hT
    cases hsig : backend.signGetUrl loc.bucket loc.key linkLifetimeSeconds with
    | none => rw [hsig] at hT; simp [hT]
    | some url => rw [hsig] at hT; simp [hT]
  · intro hh
    rw [hh] at hT
    exact ⟨by simp [handle, hT], by simp [handle, hT, Outcome.status]⟩
  · intro hh
    rw [hh] at hT
    refine ⟨by simp [handle, hT], by simp [handle, hT, Outcome.status], ?_⟩
    intro m hcontra
    rw [handle, hT] at hcontra
    cases hcontra

/-- Witness for C5: the confirmed-absent backend yields the 404. -/
theorem object_prober_trichotomy_witness :
    handle demoConfig absentBackend 0 goodRequest = .NotFound "File not found" ∧
    (handle demoConfig absentBackend 0 goodRequest).status = 404 :=
  (object_prober_trichotomy demoConfig absentBackend 0 goodRequest
      "s3://reports-bucket/2024/q1.pdf" demoLocator rfl rfl rfl (by decide)).2.1 rfl

/-- C6: the pipeline is strictly ordered and short-circuiting: a signing call
appears in the backend trace only when the probe of the same bucket and key
returned existence, and then the probe call precedes it; a failed origin
guard, parse, or bucket check leaves the backend untouched; and a confirmed
absent object never produces a redirect. -/
theorem pipeline_short_circuit (cfg : Config) (backend : Backend) (now : Nat) (req : Request) :
    (∀ b k life, BackendCall.sign b k life ∈ (handleT cfg backend now req).2 →
       backend.headObject b k = .objectExists ∧
       (handleT cfg backend now req).2 = [.head b k, .sign b k life]) ∧
    (originAllowed cfg req = false → (handleT cfg backend now req).2 = []) ∧
    (∀ u, req.uri = some u → parseLocator u = none →
       (handleT cfg backend now req).2 = []) ∧
    (∀ u loc, req.uri = some u → parseLocator u = some loc →
       loc.bucket ∉ cfg.allowedBuckets → (handleT cfg backend now req).2 = []) ∧
    (∀ u loc, req.uri = some u → parseLocator u = some loc →
       backend.headObject loc.bucket loc.key = .absent →
       ∀ url e, handle cfg backend now req ≠ .Redirect url e) := by
  by_cases ho : originAllowed cfg req = true
  · cases hu : req.uri with
    | none =>
        have hT := handleT_no_uri cfg backend now req ho hu
        refine ⟨?_, ?_, ?_, ?_, ?_⟩
        · intro b k life hmem; rw [hT] at hmem; cases hmem
        · intro h; rw [h] at ho; cases ho
        · intro u h; cases h
        · intro u loc h; cases h
        · intro u loc h; cases h
    | some u =>
        cases hp : parseLocator u with
        | none =>
            have hT := handleT_bad_uri cfg backend now req u ho hu hp
            refine ⟨?_, ?_, ?_, ?_, ?_⟩
            · intro b k life hmem; rw [hT] at hmem; cases hmem
            · intro h; rw [h] at ho; cases ho
            · intro u' h; simp [hT]
            · intro u' loc h hploc
              obtain rfl : u = u' := Option.some.inj h
              rw [hp] at hploc; cases hploc
            · intro u' loc h hploc
              obtain rfl : u = u' := Option.some.inj h
              rw [hp] at hploc; cases hploc
        | some loc =>
            by_cases hb : loc.bucket ∈ cfg.allowedBuckets
            · have hT := handleT_probe cfg backend now req u loc ho hu hp hb
              refine ⟨?_, ?_, ?_, ?_, ?_⟩
              · intro b k life hmem
                rw [hT] at hmem
                cases hh : backend.headObject loc.bucket loc.key with
                | absent => rw [hh] at hmem; simp at hmem
                | backendError => rw [hh] at hmem; simp at hmem
                | objectExists =>
                    rw [hh] at hmem
                    cases hsig : backend.signGetUrl loc.bucket loc.key linkLifetimeSeconds with
                    | none =>
                        rw [hsig] at hmem
                        simp at hmem
                        obtain ⟨rfl, rfl, rfl⟩ := hmem
                        refine ⟨hh, ?_⟩
                        rw [hT, hh, hsig]
                    | some url =>
                        rw [hsig] at hmem
                        simp at hmem
                        obtain ⟨rfl, rfl, rfl⟩ := hmem
                        refine ⟨hh, ?_⟩
                        rw [hT, hh, hsig]
              · intro h; rw [h] at ho; cases ho
              · intro u' h hploc
                obtain rfl : u = u' := Option.some.inj h
                rw [hp] at hploc; cases hploc
              · intro u' loc' h hploc hb'
                obtain rfl : u = u' := Option.some.inj h
                rw [hp] at hploc
                obtain rfl : loc = loc' := Option.some.inj hploc
                exact absurd hb hb'
              · intro u' loc' h hploc hh url e hcontra
                obtain rfl : u = u' := Option.some.inj h
                rw [hp] at hploc
                obtain rfl : loc = loc' := Option.some.inj hploc
                rw [handle, hT, hh] at hcontra
                cases hcontra
            · have hT := handleT_bad_bucket cfg backend now req u loc ho hu hp hb
              refine ⟨?_, ?_, ?_, ?_, ?_⟩
              · intro b k life hmem; rw [hT] at hmem; cases hmem
              · intro h; rw [h] at ho; cases ho
              · intro u' h hploc
                obtain rfl : u = u' := Option.some.inj h
                rw [hp] at hploc; cases hploc
              · intro u' loc' h hploc hb'; simp [hT]
              · intro u' loc' h hploc hh url e hcontra
                rw [handle, hT] at hcontra
                cases hcontra
  · have hfalse : originAllowed cfg req = false := by
      cases h : originAllowed cfg req
      · rfl
      · exact absurd h ho
    have hT := handleT_origin_denied cfg backend now req hfalse
    refine ⟨?_, ?_, ?_, ?_, ?_⟩
    · intro b k life hmem; rw [hT] at hmem; cases hmem
    · intro h; simp [hT]
    · intro u h hploc; simp [hT]
    · intro u loc h hploc hb; simp [hT]
    · intro u loc h hploc hh url e hcontra
      rw [handle, hT] at hcontra
      cases hcontra

/-- Witness for C6: with a probe confirming absence, the happy-path request
never redirects. -/
theorem pipeline_short_circuit_witness :
    absentBackend.headObject "reports-bucket" "2024/q1.pdf" = .absent ∧
    handle demoConfig absentBackend 0 goodRequest ≠ .Redirect demoUrl 3600 :=
  ⟨rfl, (pipeline_short_circuit demoConfig absentBackend 0 goodRequest).2.2.2.2
    "s3://reports-bucket/2024/q1.pdf" demoLocator rfl rfl rfl demoUrl 3600⟩

/-- C8: the stack bounds the Lambda invocation with a 15-minute timeout
(`cdk.Duration.minutes(15)`), and — in the modelled handler — a failing
backend call (timeout included) or a failing signing call surfaces as
`InternalError` rather than hanging or leaking. -/
theorem timeout_bound_internal_error (cfg : Config) (backend : Backend) (now : Nat)
    (req : Request) (u : String) (loc : Locator)
    (ho : originAllowed cfg req = true) (hu : req.uri = some u)
    (hp : parseLocator u = some loc) (hb : loc.bucket ∈ cfg.allowedBuckets) :
    lambdaTimeoutSeconds = 900 ∧ lambdaTimeoutSeconds ≤ 15 * 60 ∧
    (backend.headObject loc.bucket loc.key = .backendError →
       handle cfg backend now req = .InternalError "Internal server error" ∧
       (handle cfg backend now req).status = 500) ∧
    (backend.headObject loc.bucket loc.key = .objectExists →
       backend.signGetUrl loc.bucket loc.key linkLifetimeSeconds = none →
       handle cfg backend now req = .InternalError "Internal server error") := by
  have hT := handleT_probe cfg backend now req u loc ho hu hp hb
  refine ⟨rfl, le_refl _, ?_, ?_⟩
  · intro hh
    rw [hh] at hT
    exact ⟨by simp [handle, hT], by simp [handle, hT, Outcome.status]⟩
  · intro hh hsig
    rw [hh, hsig] at hT
    simp [handle, hT]

/-- Witness for C8: a probe failure on the happy-path request yields the 500. -/
theorem timeout_bound_internal_error_witness :
    lambdaTimeoutSeconds = 900 ∧
    handle demoConfig errorBackend 0 goodRequest = .InternalError "Internal server error" :=
  ⟨(timeout_bound_internal_error demoConfig errorBackend 0 goodRequest
      "s3://reports-bucket/2024/q1.pdf" demoLocator rfl rfl rfl (by decide)).1,
   ((timeout_bound_internal_error demoConfig errorBackend 0 goodRequest
      "s3://reports-bucket/2024/q1.pdf" demoLocator rfl rfl rfl (by decide)).2.2.1 rfl).1⟩

/-- C7: the gateway's preflight configuration allows exactly the configured
origins — membership in its `allowOrigins` coincides with membership in the
configured allow-list — with all methods, the default header set, and
credentials allowed. -/
theorem cors_allow_list_exact (props : StackProps) :
    (∀ o, o ∈ (stackCorsOptions props).allowOrigins ↔ o ∈ props.allowedOrigins) ∧
    (stackCorsOptions props).allowOrigins = props.allowedOrigins ∧
    (stackCorsOptions props).allowMethods = corsAllMethods ∧
    (stackCorsOptions props).allowHeaders = corsDefaultHeaders ∧
    (stackCorsOptions props).allowCredentials = true :=
  ⟨fun _ => Iff.rfl, rfl, rfl, rfl, rfl⟩

theorem bucketObjectsArn_inj (a b : String) (h : bucketObjectsArn a = bucketObjectsArn b) :
    a = b := by
  have hd := congrArg String.data h
  simp only [bucketObjectsArn, String.data_append, List.append_assoc] at hd
  have hd' := List.append_cancel_left hd
  have hd'' := List.append_cancel_right hd'
  have := congrArg String.mk hd''
  rwa [mk_data, mk_data] at this

/-- C9: for every bucket name `b`, the role policy the stack adds grants
`s3:GetObject` and `s3:HeadObject` on `arn:aws:s3:::b/*` exactly when `b` is
in the configured `allowedBuckets` — so unlisted buckets are outside every S3
resource the stack grants. -/
theorem s3_grants_exact (props : StackProps) (b : String) :
    (bucketObjectsArn b ∈ (stackLambdaPolicy props).resources ↔
       b ∈ props.allowedBuckets) ∧
    (stackLambdaPolicy props).actions = ["s3:GetObject", "s3:HeadObject"] ∧
    (stackLambdaPolicy props).allowEffect = true := by
  refine ⟨⟨?_, ?_⟩, rfl, rfl⟩
  · intro hmem
    have hmem' : bucketObjectsArn b ∈ props.allowedBuckets.map bucketObjectsArn := hmem
    obtain ⟨a, ha, heq⟩ := List.mem_map.mp hmem'
    rwa [bucketObjectsArn_inj a b heq] at ha
  · intro hb
    exact List.mem_map.mpr ⟨b, hb, rfl⟩

theorem splitCommaChars_ne_nil (l : List Char) : splitCommaChars l ≠ [] := by
  induction l with
  | nil => simp [splitCommaChars]
  | cons c cs ih =>
      by_cases hc : c = ','
      · simp [splitCommaChars, hc]
      · simp only [splitCommaChars, if_neg hc]
        cases h : splitCommaChars cs with
        | nil => simp
        | cons r rs => simp

theorem splitCommaChars_no_comma (l : List Char) (h : (',' : Char) ∉ l) :
    splitCommaChars l = [l] := by
  induction l with
  | nil => rfl
  | cons c cs ih =>
      have hc : c ≠ ',' := fun hcc => h (hcc ▸ List.mem_cons_self c cs)
      have hcs : (',' : Char) ∉ cs := fun hm => h (List.mem_cons_of_mem c hm)
      simp [splitCommaChars, hc, ih hcs]

theorem splitCommaChars_append (x rest : List Char) (h : (',' : Char) ∉ x) :
    splitCommaChars (x ++ ',' :: rest) = x :: splitCommaChars rest := by
  induction x with
  | nil => simp [splitCommaChars]
  | cons c cs ih =>
      have hc : c ≠ ',' := fun hcc => h (hcc ▸ List.mem_cons_self c cs)
      have hcs : (',' : Char) ∉ cs := fun hm => h (List.mem_cons_of_mem c hm)
      simp [splitCommaChars, hc, ih hcs]

theorem splitJoin_chars :
    ∀ ls : List (List Char), ls ≠ [] → (∀ l ∈ ls, (',' : Char) ∉ l) →
      splitCommaChars (joinCommaChars ls) = ls
  | [], h1, _ => absurd rfl h1
  | [x], _, h2 => by
      simpa [joinCommaChars] using splitCommaChars_no_comma x (h2 x (by simp))
  | x :: y :: ys, _, h2 => by
      have hx : (',' : Char) ∉ x := h2 x (by simp)
      have hrec : splitCommaChars (joinCommaChars (y :: ys)) = y :: ys :=
        splitJoin_chars (y :: ys) (by simp) (fun l hl => h2 l (by simp [hl]))
      have hjoin : joinCommaChars (x :: y :: ys) = x ++ ',' :: joinCommaChars (y :: ys) := rfl
      rw [hjoin, splitCommaChars_append x _ hx, hrec]

theorem splitComma_joinComma (ls : List String) (h1 : ls ≠ [])
    (h2 : ∀ l ∈ ls, (',' : Char) ∉ l.data) :
    splitComma (joinComma ls) = ls := by
  have hmap1 : ls.map String.data ≠ [] := by simpa using h1
  have hmap2 : ∀ l ∈ ls.map String.data, (',' : Char) ∉ l := by
    intro l hl
    obtain ⟨s, hs, rfl⟩ := List.mem_map.mp hl
    exact h2 s hs
  unfold splitComma joinComma
  rw [show (String.mk (joinCommaChars (ls.map String.data))).data =
        joinCommaChars (ls.map String.data) from rfl,
      splitJoin_chars (ls.map String.data) hmap1 hmap2, List.map_map,
      show String.mk ∘ String.data = id from funext mk_data, List.map_id]

/-- Counterexample to C10 as stated: the empty configuration contains no
comma-containing entry, yet joining it to the environment string and
splitting on commas yields `[""]`, not the configured `[]`. -/
theorem env_roundtrip_fails_on_empty :
    (∀ l ∈ ([] : List String), (',' : Char) ∉ l.data) ∧
    splitComma (joinComma ([] : List String)) ≠ ([] : List String) :=
  ⟨by simp, by decide⟩

/-- C10 (amended): the allow-lists reach the handler as the comma-joined
`ALLOWED_BUCKETS` and `ALLOWED_ORIGINS` environment strings; for every
configuration whose lists are nonempty and comma-free the split recovers the
lists exactly, while a comma-containing entry breaks the round trip. -/
theorem env_comma_roundtrip (props : StackProps)
    (hb1 : props.allowedBuckets ≠ [])
    (hb2 : ∀ l ∈ props.allowedBuckets, (',' : Char) ∉ l.data)
    (hg1 : props.allowedOrigins ≠ [])
    (hg2 : ∀ l ∈ props.allowedOrigins, (',' : Char) ∉ l.data) :
    ("ALLOWED_BUCKETS", joinComma props.allowedBuckets) ∈ stackEnvironment props ∧
    ("ALLOWED_ORIGINS", joinComma props.allowedOrigins) ∈ stackEnvironment props ∧
    splitComma (joinComma props.allowedBuckets) = props.allowedBuckets ∧
    splitComma (joinComma props.allowedOrigins) = props.allowedOrigins ∧
    splitComma (joinComma ["a,b"]) ≠ ["a,b"] :=
  ⟨by simp [stackEnvironment], by simp [stackEnvironment],
   splitComma_joinComma props.allowedBuckets hb1 hb2,
   splitComma_joinComma props.allowedOrigins hg1 hg2,
   by decide⟩

/-- Witness for C10 (amended): the demo configuration round-trips. -/
theorem env_comma_roundtrip_witness :
    ("ALLOWED_BUCKETS", joinComma demoProps.allowedBuckets) ∈ stackEnvironment demoProps ∧
    ("ALLOWED_ORIGINS", joinComma demoProps.allowedOrigins) ∈ stackEnvironment demoProps ∧
    splitComma (joinComma demoProps.allowedBuckets) = demoProps.allowedBuckets ∧
    splitComma (joinComma demoProps.allowedOrigins) = demoProps.allowedOrigins ∧
    splitComma (joinComma ["a,b"]) ≠ ["a,b"] :=
  env_comma_roundtrip demoProps (by decide) (by decide) (by decide) (by decide)

end S3Download
